import Mathlib

/-!
Verification of the mock HTTP API server (src/server/server.js).

The server keeps one mutable table `mockLogs` mapping job names to bounded
lists of log lines, and serves three endpoints.  We embed the state as an
association list preserving key order (JavaScript object key order), and each
request handler as a pure function of the state plus the sources of
nondeterminism it consumes (timestamps, the random draw, the random tokens of
the synthetic long log).  Delayed callbacks are modelled as a second phase:
the synchronous part of a handler returns either an immediate response or a
`scheduled` value carrying everything the callback closes over.
-/

namespace MockServer

/-- The log store: job name to ordered list of log lines, in object key order. -/
abbrev Store := List (String × List String)

/-- Initial state of `mockLogs` (server.js lines 9-16): five known job names,
each with an empty list. -/
def mockLogs : Store :=
  [("Sale", []), ("CurrencyInfo", []), ("PackageIdPrice", []),
   ("PackageIdSaleInfo", []), ("BundleIdSaleInfo", [])]

/-- ASCII lower-casing of a string, as its character list.  This matches
`String.toLower` (which maps `Char.toLower` over the characters) and the
behaviour of `toLowerCase()` on the ASCII names used by the server. -/
def lowerOf (s : String) : List Char :=
  s.data.map Char.toLower

/-- `Object.keys(mockLogs).find(k => k.toLowerCase() === name.toLowerCase())`:
first key whose lower-casing matches the lower-cased name. -/
def findLogKey (store : Store) (name : String) : Option String :=
  (store.map Prod.fst).find? (fun k => lowerOf k == lowerOf name)

/-- A log line as built by `addLog`: a bracketed timestamp then the message. -/
def entryOf (ts msg : String) : String :=
  "[" ++ ts ++ "] " ++ msg

/-- `push` followed by `if (length > 20) shift()`: append at the back, and if
the length now exceeds 20 drop the front element. -/
def pushCap (l : List String) (e : String) : List String :=
  let l2 := l ++ [e]
  if l2.length > 20 then l2.tail else l2

/-- `addLog` (server.js lines 19-32): look the name up case-insensitively; on
a hit push the timestamped message onto that key with capacity eviction; on a
miss only a console warning is printed and the store is untouched. -/
def addLog (store : Store) (name ts msg : String) : Store :=
  match findLogKey store name with
  | none => store
  | some logKey =>
      store.map (fun p => if p.1 = logKey then (p.1, pushCap p.2 (entryOf ts msg)) else p)

/-- Read the list stored under a key (first matching pair, else empty). -/
def lookupLogs (store : Store) (k : String) : List String :=
  (((store.find? (fun p => p.1 == k))).map Prod.snd).getD []

/-- JavaScript falsiness of `req.query.x`: the parameter is missing when it is
absent or the empty string. -/
def isMissing : Option String → Bool
  | none => true
  | some s => s.data.isEmpty

/-- One `addLog` call, for iterating the append operation. -/
structure AddOp where
  name : String
  ts : String
  msg : String

/-- Run a sequence of append-log operations against a store. -/
def runOps (store : Store) (ops : List AddOp) : Store :=
  ops.foldl (fun s o => addLog s o.name o.ts o.msg) store

/-- Every list in the store holds at most 20 entries. -/
def StoreBounded (store : Store) : Prop :=
  ∀ p ∈ store, p.2.length ≤ 20

/-- JSON body of a `/start_parser` response. -/
structure ParserResp where
  status : Nat
  message : String
  parser : String
deriving DecidableEq, Repr

/-- Result of the synchronous part of the `/start_parser` handler: either an
immediate response (the 400 path) or a scheduled delayed callback closing over
the effective and the raw parser name. -/
inductive SyncStep where
  | immediate (store : Store) (status : Nat) (message : String)
  | scheduled (store : Store) (effName : String) (rawName : String)
deriving DecidableEq, Repr

/-- Synchronous part of `/start_parser` (server.js lines 39-60): missing name
means an immediate 400 with the store untouched; otherwise resolve the
effective name (`logKey || parserName`), append the start-requested entry, and
schedule the delayed callback. -/
def startParserSync (store : Store) (q : Option String) (ts : String) : SyncStep :=
  if isMissing q then
    .immediate store 400 "Query parameter \"parser\" is required"
  else
    let parserName := q.getD ""
    let logKey := findLogKey store parserName
    let effectiveParserName := logKey.getD parserName
    .scheduled (addLog store effectiveParserName ts "Parser start requested.")
      effectiveParserName parserName

/-- Delayed callback of `/start_parser` (server.js lines 62-82): fail exactly
when the effective name is the string CurrencyInfo and the random draw is
below 0.2; append the matching log entry and build the response from the raw
name. -/
def startParserCallback (store : Store) (effName rawName : String) (r : ℚ)
    (ts : String) : Store × ParserResp :=
  if effName = "CurrencyInfo" ∧ r < mkRat 1 5 then
    (addLog store effName ts "Parser execution FAILED.",
     ⟨500, "Mock error during " ++ rawName ++ " parsing", rawName⟩)
  else
    (addLog store effName ts "Parser execution finished successfully.",
     ⟨200, "Parser " ++ rawName ++ " started and finished successfully (mock).", rawName⟩)

/-- Full outcome of one `/start_parser` request. -/
inductive ParserResult where
  | badRequest (store : Store) (status : Nat) (message : String)
  | done (store : Store) (resp : ParserResp)
deriving DecidableEq, Repr

/-- One `/start_parser` request end to end: the synchronous phase with
timestamp `ts`, then, when a callback was scheduled, the delayed phase with
random draw `r` and timestamp `rts`. -/
def startParser (store : Store) (q : Option String) (ts rts : String) (r : ℚ) :
    ParserResult :=
  match startParserSync store q ts with
  | .immediate st s m => .badRequest st s m
  | .scheduled st eff raw =>
      let out := startParserCallback st eff raw r rts
      .done out.1 out.2

/-- JSON body of a `/start_table_process` response. -/
structure TableResp where
  status : Nat
  message : String
  method : String
deriving DecidableEq, Repr

/-- Outcome of `/start_table_process`: an immediate 400 or the delayed
always-success response. -/
inductive TableOutcome where
  | badRequest (status : Nat) (message : String)
  | delayed (resp : TableResp)
deriving DecidableEq, Repr

/-- The console warning predicate of `/start_table_process` (server.js lines
97-99): warn when the method is set_shop_price and args is not the literal
string with the one-element array main. -/
def tableWarn (m : String) (args : Option String) : Bool :=
  m == "set_shop_price" && args != some "[\"main\"]"

/-- `/start_table_process` handler (server.js lines 86-114): missing method
means an immediate 400; otherwise the delayed callback always responds 200.
The handler never touches the log store, which it returns unchanged. -/
def startTableProcess (store : Store) (qMethod : Option String)
    (args : Option String) : Store × TableOutcome :=
  match qMethod with
  | none => (store, .badRequest 400 "Query parameter \"method\" is required")
  | some m =>
      if m.data.isEmpty then (store, .badRequest 400 "Query parameter \"method\" is required")
      else (store, .delayed ⟨200, "Table process " ++ m ++ " finished successfully (mock).", m⟩)

/-- One line of the synthetic long log (server.js line 137), for loop index
`i` (the printed number is `i + 1`) and random token `tok`. -/
def longLogLine (i : Nat) (tok : String) : String :=
  "This is a very long log line number " ++ toString (i + 1) ++
    " to test the file sending feature. Count: " ++ tok ++ ".\n"

/-- The synthetic long-log block (server.js lines 135-139): start marker, then
a loop appending 500 numbered lines, then the end marker. -/
def longLogBlock (toks : Nat → String) : String :=
  ((List.range 500).foldl (fun acc i => acc ++ longLogLine i (toks i))
      "\n----- START LONG LOG -----\n") ++ "----- END LONG LOG -----"

/-- `/get_logs/parser=<name>` handler (server.js lines 117-148): unknown name
gives 404; otherwise 200 with the stored lines joined by newlines (or a
placeholder when empty), plus the synthetic block when the canonical key is
Sale and the list is non-empty.  The store is never mutated. -/
def getLogs (store : Store) (parserName ts : String) (toks : Nat → String) :
    Store × Nat × String :=
  match findLogKey store parserName with
  | none => (store, 404, "No logs found for unknown parser: " ++ parserName)
  | some logKey =>
      let logs := lookupLogs store logKey
      let base :=
        if logs.length > 0 then String.intercalate "\n" logs
        else "[" ++ ts ++ "] No logs recorded yet for " ++ logKey ++ "."
      let full :=
        if logKey = "Sale" ∧ logs.length > 0 then base ++ longLogBlock toks else base
      (store, 200, full)

/-- Delay of `/start_parser` (server.js line 59): `Math.random() * 3000 + 1000`. -/
def parserDelay (r : ℚ) : ℚ := r * 3000 + 1000

/-- Delay of `/start_table_process` (server.js line 102): `Math.random() * 1000 + 500`. -/
def tableDelay (r : ℚ) : ℚ := r * 1000 + 500

/-! ### Helper lemmas about the store operations -/

theorem pushCap_length_le (l : List String) (e : String) (h : l.length ≤ 20) :
    (pushCap l e).length ≤ 20 := by
  simp only [pushCap, List.length_append, List.length_cons, List.length_nil]
  split
  · simp only [List.length_tail, List.length_append, List.length_cons, List.length_nil]
    omega
  · next hgt => simp only [List.length_append, List.length_cons, List.length_nil]; omega

theorem pushCap_of_lt (l : List String) (e : String) (h : l.length < 20) :
    pushCap l e = l ++ [e] := by
  simp only [pushCap, List.length_append, List.length_cons, List.length_nil]
  rw [if_neg (by omega)]

theorem pushCap_of_full (l : List String) (e : String) (h : l.length = 20) :
    pushCap l e = l.tail ++ [e] := by
  simp only [pushCap, List.length_append, List.length_cons, List.length_nil]
  rw [if_pos (by omega)]
  cases l with
  | nil => simp at h
  | cons hd tl => simp

theorem addLog_keys (store : Store) (name ts msg : String) :
    (addLog store name ts msg).map Prod.fst = store.map Prod.fst := by
  unfold addLog
  cases h : findLogKey store name with
  | none => rfl
  | some k =>
      rw [List.map_map]
      apply List.map_congr_left
      intro p _
      by_cases hp : p.1 = k <;> simp [hp]

theorem findLogKey_addLog (store : Store) (name ts msg n2 : String) :
    findLogKey (addLog store name ts msg) n2 = findLogKey store n2 := by
  unfold findLogKey
  rw [addLog_keys]

theorem addLog_unknown (store : Store) (name ts msg : String)
    (h : findLogKey store name = none) : addLog store name ts msg = store := by
  unfold addLog
  rw [h]

theorem findLogKey_mem (store : Store) (name key : String)
    (h : findLogKey store name = some key) : key ∈ store.map Prod.fst :=
  List.mem_of_find?_eq_some h

theorem findLogKey_lower (store : Store) (name key : String)
    (h : findLogKey store name = some key) : lowerOf key = lowerOf name := by
  have hp := List.find?_some h
  exact eq_of_beq hp

theorem findLogKey_self (store : Store) (name key : String)
    (h : findLogKey store name = some key) : findLogKey store key = some key := by
  have hl := findLogKey_lower store name key h
  unfold findLogKey at h ⊢
  have hfun : (fun k => lowerOf k == lowerOf key) = (fun k => lowerOf k == lowerOf name) := by
    funext x
    rw [hl]
  rw [hfun, h]

theorem lookupLogs_update_self (store : Store) (key e : String)
    (hmem : key ∈ store.map Prod.fst) :
    lookupLogs (store.map (fun p => if p.1 = key then (p.1, pushCap p.2 e) else p)) key
      = pushCap (lookupLogs store key) e := by
  induction store with
  | nil => simp at hmem
  | cons hd tl ih =>
      by_cases h : hd.1 = key
      · simp only [lookupLogs, List.map_cons, if_pos h]
        rw [List.find?_cons_of_pos _ (by simp [h]), List.find?_cons_of_pos _ (by simp [h])]
        rfl
      · have hmem2 : key ∈ tl.map Prod.fst := by
          rw [List.map_cons, List.mem_cons] at hmem
          rcases hmem with h1 | h2
          · exact absurd h1.symm h
          · exact h2
        simp only [lookupLogs, List.map_cons, if_neg h]
        rw [List.find?_cons_of_neg _ (by simp [h]), List.find?_cons_of_neg _ (by simp [h])]
        exact ih hmem2

theorem lookupLogs_update_other (store : Store) (key k e : String) (hk : k ≠ key) :
    lookupLogs (store.map (fun p => if p.1 = key then (p.1, pushCap p.2 e) else p)) k
      = lookupLogs store k := by
  induction store with
  | nil => rfl
  | cons hd tl ih =>
      by_cases h : hd.1 = key
      · have hne : ¬hd.1 = k := by
          rw [h]
          exact fun he => hk he.symm
        simp only [lookupLogs, List.map_cons, if_pos h]
        rw [List.find?_cons_of_neg _ (by simp [hne]), List.find?_cons_of_neg _ (by simp [hne])]
        exact ih
      · by_cases h2 : hd.1 = k
        · simp only [lookupLogs, List.map_cons, if_neg h]
          rw [List.find?_cons_of_pos _ (by simp [h2]), List.find?_cons_of_pos _ (by simp [h2])]
        · simp only [lookupLogs, List.map_cons, if_neg h]
          rw [List.find?_cons_of_neg _ (by simp [h2]), List.find?_cons_of_neg _ (by simp [h2])]
          exact ih

theorem lookupLogs_addLog_self (store : Store) (name ts msg key : String)
    (h : findLogKey store name = some key) :
    lookupLogs (addLog store name ts msg) key
      = pushCap (lookupLogs store key) (entryOf ts msg) := by
  unfold addLog
  rw [h]
  exact lookupLogs_update_self store key (entryOf ts msg) (findLogKey_mem store name key h)

theorem lookupLogs_addLog_other (store : Store) (name ts msg key k : String)
    (h : findLogKey store name = some key) (hk : k ≠ key) :
    lookupLogs (addLog store name ts msg) k = lookupLogs store k := by
  unfold addLog
  rw [h]
  exact lookupLogs_update_other store key k (entryOf ts msg) hk

theorem storeBounded_addLog (store : Store) (name ts msg : String)
    (h : StoreBounded store) : StoreBounded (addLog store name ts msg) := by
  unfold addLog
  cases hf : findLogKey store name with
  | none => exact h
  | some k =>
      intro p hp
      rw [List.mem_map] at hp
      obtain ⟨q, hq, rfl⟩ := hp
      by_cases hqk : q.1 = k
      · simp only [if_pos hqk]
        exact pushCap_length_le q.2 (entryOf ts msg) (h q hq)
      · simp only [if_neg hqk]
        exact h q hq

theorem storeBounded_runOps (store : Store) (ops : List AddOp)
    (h : StoreBounded store) : StoreBounded (runOps store ops) := by
  induction ops generalizing store with
  | nil => exact h
  | cons o rest ih =>
      exact ih (addLog store o.name o.ts o.msg) (storeBounded_addLog store o.name o.ts o.msg h)

theorem runOps_keys (store : Store) (ops : List AddOp) :
    (runOps store ops).map Prod.fst = store.map Prod.fst := by
  induction ops generalizing store with
  | nil => rfl
  | cons o rest ih =>
      calc (runOps (addLog store o.name o.ts o.msg) rest).map Prod.fst
          = (addLog store o.name o.ts o.msg).map Prod.fst := ih _
        _ = store.map Prod.fst := addLog_keys store o.name o.ts o.msg

theorem mockLogs_bounded : StoreBounded mockLogs := by
  intro p hp
  simp only [mockLogs, List.mem_cons, List.not_mem_nil, or_false] at hp
  rcases hp with rfl | rfl | rfl | rfl | rfl <;> simp

/-! ### Helper lemmas about the synthetic long-log block -/

/-- Concatenation of a list of strings, for stating the loop of the long-log
block as a flat list of lines. -/
def concatStrings : List String → String
  | [] => ""
  | s :: rest => s ++ concatStrings rest

theorem foldl_append_eq_concat (g : Nat → String) (l : List Nat) (s : String) :
    l.foldl (fun acc i => acc ++ g i) s = s ++ concatStrings (l.map g) := by
  induction l generalizing s with
  | nil => simp [concatStrings]
  | cons hd tl ih =>
      rw [List.foldl_cons, ih (s ++ g hd), List.map_cons]
      rw [concatStrings, String.append_assoc]

theorem longLogBlock_eq (toks : Nat → String) :
    longLogBlock toks =
      "\n----- START LONG LOG -----\n" ++
        concatStrings ((List.range 500).map (fun i => longLogLine i (toks i))) ++
        "----- END LONG LOG -----" := by
  unfold longLogBlock
  rw [foldl_append_eq_concat]

theorem longLogBlock_length_ne_zero (toks : Nat → String) :
    (longLogBlock toks).length ≠ 0 := by
  unfold longLogBlock
  rw [String.length_append]
  have h : ("----- END LONG LOG -----" : String).length = 24 := by decide
  omega

theorem append_ne_self_of_ne_empty (s t : String) (h : t.length ≠ 0) :
    s ++ t ≠ s := by
  intro he
  have hl := congrArg String.length he
  rw [String.length_append] at hl
  omega

theorem startParser_scheduled (store : Store) (q : Option String) (ts rts : String)
    (r : ℚ) (st : Store) (eff raw : String)
    (h : startParserSync store q ts = SyncStep.scheduled st eff raw) :
    startParser store q ts rts r =
      ParserResult.done (startParserCallback st eff raw r rts).1
        (startParserCallback st eff raw r rts).2 := by
  unfold startParser
  rw [h]

/-! ### Claim theorems -/

/-- Claim C1: for every key in the log store and every sequence of append-log
operations from the initial store, each stored sequence holds at most 20
entries after each operation; an append below capacity adds the new entry at
the back, and an append at capacity 20 also removes the oldest entry from the
front (FIFO eviction, capacity 20). -/
theorem C1_log_capacity :
    (∀ ops : List AddOp, StoreBounded (runOps mockLogs ops)) ∧
    (∀ store : Store, StoreBounded store →
      ∀ name ts msg : String, StoreBounded (addLog store name ts msg)) ∧
    (∀ (l : List String) (e : String), l.length < 20 → pushCap l e = l ++ [e]) ∧
    (∀ (l : List String) (e : String), l.length = 20 → pushCap l e = l.tail ++ [e]) :=
  ⟨fun ops => storeBounded_runOps mockLogs ops mockLogs_bounded,
   fun store h name ts msg => storeBounded_addLog store name ts msg h,
   pushCap_of_lt, pushCap_of_full⟩

/-- Concrete instance of C1_log_capacity: one append below capacity and one at
full capacity. -/
theorem C1_log_capacity_witness :
    ((List.replicate 3 "x").length < 20 ∧
      pushCap (List.replicate 3 "x") "y" = List.replicate 3 "x" ++ ["y"]) ∧
    ((List.replicate 20 "x").length = 20 ∧
      pushCap (List.replicate 20 "x") "y" = (List.replicate 20 "x").tail ++ ["y"]) :=
  ⟨⟨by decide, C1_log_capacity.2.2.1 (List.replicate 3 "x") "y" (by decide)⟩,
   ⟨by decide, C1_log_capacity.2.2.2 (List.replicate 20 "x") "y" (by decide)⟩⟩

/-- Claim C4: a `/start_parser` request with the parser parameter missing and
a `/start_table_process` request with the method parameter missing are both
answered immediately with HTTP 400 and the documented message, no delayed
callback runs, and the log store is returned entirely unchanged. -/
theorem C4_missing_required (store : Store) (ts rts : String) (r : ℚ)
    (q qm args : Option String) (hq : isMissing q = true) (hm : isMissing qm = true) :
    startParser store q ts rts r =
      ParserResult.badRequest store 400 "Query parameter \"parser\" is required" ∧
    startTableProcess store qm args =
      (store, TableOutcome.badRequest 400 "Query parameter \"method\" is required") := by
  constructor
  · have hs : startParserSync store q ts =
        SyncStep.immediate store 400 "Query parameter \"parser\" is required" := by
      unfold startParserSync
      rw [if_pos hq]
    unfold startParser
    rw [hs]
  · cases qm with
    | none => rfl
    | some m =>
        simp only [isMissing] at hm
        simp only [startTableProcess]
        rw [if_pos hm]

/-- Concrete instance of C4_missing_required: both parameters absent. -/
theorem C4_missing_required_witness :
    isMissing (none : Option String) = true ∧
    (startParser mockLogs none "T1" "T2" (mkRat 1 2) =
      ParserResult.badRequest mockLogs 400 "Query parameter \"parser\" is required" ∧
    startTableProcess mockLogs none (some "[\"main\"]") =
      (mockLogs, TableOutcome.badRequest 400 "Query parameter \"method\" is required")) :=
  ⟨by decide,
   C4_missing_required mockLogs "T1" "T2" (mkRat 1 2) none none (some "[\"main\"]")
     (by decide) (by decide)⟩

/-- Claim C7: a Get Logs request whose embedded name matches no known key
case-insensitively is answered with HTTP 404 and the documented message, and
the log store is unchanged. -/
theorem C7_unknown_logs_404 (store : Store) (name ts : String) (toks : Nat → String)
    (hk : findLogKey store name = none) :
    getLogs store name ts toks =
      (store, 404, "No logs found for unknown parser: " ++ name) := by
  unfold getLogs
  rw [hk]

/-- Concrete instance of C7_unknown_logs_404: the name foo is unknown. -/
theorem C7_unknown_logs_404_witness :
    findLogKey mockLogs "foo" = none ∧
    getLogs mockLogs "foo" "T" (fun _ => "k") =
      (mockLogs, 404, "No logs found for unknown parser: " ++ "foo") :=
  ⟨by decide, C7_unknown_logs_404 mockLogs "foo" "T" (fun _ => "k") (by decide)⟩

/-- Claim C8: a `/start_table_process` request with the method parameter
present is always answered, after the delay, with HTTP 200 and the documented
body; the response does not depend on the args parameter, and the log store is
returned unchanged (no entry is recorded). -/
theorem C8_table_always_success (store : Store) (m : String) (args args2 : Option String)
    (hne : m.data.isEmpty = false) :
    startTableProcess store (some m) args =
      (store, TableOutcome.delayed
        ⟨200, "Table process " ++ m ++ " finished successfully (mock).", m⟩) ∧
    startTableProcess store (some m) args = startTableProcess store (some m) args2 := by
  constructor
  · simp only [startTableProcess]
    rw [if_neg (by simp [hne])]
  · rfl

/-- Concrete instance of C8_table_always_success: set_shop_price with
mismatching args still succeeds and triggers only the warning predicate. -/
theorem C8_table_always_success_witness :
    ("set_shop_price".data.isEmpty = false ∧
      tableWarn "set_shop_price" (some "[\"wrong\"]") = true) ∧
    (startTableProcess mockLogs (some "set_shop_price") (some "[\"wrong\"]") =
      (mockLogs, TableOutcome.delayed
        ⟨200, "Table process " ++ "set_shop_price" ++ " finished successfully (mock).",
          "set_shop_price"⟩) ∧
    startTableProcess mockLogs (some "set_shop_price") (some "[\"wrong\"]") =
      startTableProcess mockLogs (some "set_shop_price") (some "[\"main\"]")) :=
  ⟨⟨by decide, by decide⟩,
   C8_table_always_success mockLogs "set_shop_price" (some "[\"wrong\"]") (some "[\"main\"]")
     (by decide)⟩

/-- Claim C9: for every random draw in the interval from 0 inclusive to 1
exclusive, the parser delay lies in the interval from 1000 inclusive to 4000
exclusive and the table-process delay lies in the interval from 500 inclusive
to 1500 exclusive (milliseconds). -/
theorem C9_delay_ranges (r : ℚ) (h0 : 0 ≤ r) (h1 : r < 1) :
    (1000 ≤ parserDelay r ∧ parserDelay r < 4000) ∧
    (500 ≤ tableDelay r ∧ tableDelay r < 1500) := by
  unfold parserDelay tableDelay
  refine ⟨⟨?_, ?_⟩, ?_, ?_⟩ <;> nlinarith

/-- Concrete instance of C9_delay_ranges at the draw one half. -/
theorem C9_delay_ranges_witness :
    ((0:ℚ) ≤ mkRat 1 2 ∧ (mkRat 1 2 : ℚ) < 1) ∧
    ((1000 ≤ parserDelay (mkRat 1 2) ∧ parserDelay (mkRat 1 2) < 4000) ∧
     (500 ≤ tableDelay (mkRat 1 2) ∧ tableDelay (mkRat 1 2) < 1500)) :=
  ⟨⟨by decide, by decide⟩, C9_delay_ranges (mkRat 1 2) (by decide) (by decide)⟩

/-- Claim C10: the key set of the log store is constant: it is exactly the
five known names, each initially mapped to the empty sequence; appends with an
unmatched name leave the whole store unchanged, and appends with a matched
name leave every other sequence unchanged. -/
theorem C10_store_frame :
    mockLogs.map Prod.fst =
      ["Sale", "CurrencyInfo", "PackageIdPrice", "PackageIdSaleInfo", "BundleIdSaleInfo"] ∧
    (∀ p ∈ mockLogs, p.2 = []) ∧
    (∀ ops : List AddOp, (runOps mockLogs ops).map Prod.fst = mockLogs.map Prod.fst) ∧
    (∀ (store : Store) (name ts msg : String),
      findLogKey store name = none → addLog store name ts msg = store) ∧
    (∀ (store : Store) (name ts msg key : String), findLogKey store name = some key →
      ∀ k : String, k ≠ key →
        lookupLogs (addLog store name ts msg) k = lookupLogs store k) := by
  refine ⟨by decide, by decide, fun ops => runOps_keys mockLogs ops, addLog_unknown, ?_⟩
  intro store name ts msg key hk k hkk
  exact lookupLogs_addLog_other store name ts msg key k hk hkk

/-- Concrete instance of C10_store_frame: an unknown-name append is a no-op,
and a matched append does not touch the other keys. -/
theorem C10_store_frame_witness :
    (findLogKey mockLogs "foo" = none ∧ addLog mockLogs "foo" "T" "m" = mockLogs) ∧
    (findLogKey mockLogs "sale" = some "Sale" ∧ "CurrencyInfo" ≠ "Sale" ∧
      lookupLogs (addLog mockLogs "sale" "T" "m") "CurrencyInfo" =
        lookupLogs mockLogs "CurrencyInfo") :=
  ⟨⟨by decide, C10_store_frame.2.2.2.1 mockLogs "foo" "T" "m" (by decide)⟩,
   ⟨by decide, by decide,
     C10_store_frame.2.2.2.2 mockLogs "sale" "T" "m" "Sale" (by decide) "CurrencyInfo"
       (by decide)⟩⟩

/-- Claim C2 counterexample: for the unknown name foo the synchronous phase of
`/start_parser` schedules the callback but appends no entry at all: the store
after the synchronous phase, and after the delayed callback, is the unchanged
all-empty initial store, not a store with one new entry per phase. -/
theorem C2_counterexample :
    startParserSync mockLogs (some "foo") "T1" = SyncStep.scheduled mockLogs "foo" "foo" ∧
    (startParserCallback mockLogs "foo" "foo" (mkRat 1 2) "T2").1 = mockLogs ∧
    (∀ p ∈ mockLogs, p.2 = []) :=
  ⟨by decide, by decide, by decide⟩

/-- Claim C2 amended: for a `/start_parser` request whose name is present and
matches a known key case-insensitively, exactly one start-requested entry is
appended to that key synchronously (with capacity eviction, other keys
untouched), and exactly one finished/FAILED entry is appended by the delayed
callback; when the name matches no key the handler still proceeds but both
append calls leave the store unchanged. -/
theorem C2_start_logs_amended (store : Store) (name ts rts : String) (r : ℚ)
    (key : String) (hne : isMissing (some name) = false)
    (hk : findLogKey store name = some key) :
    ∃ st1 : Store,
      startParserSync store (some name) ts = SyncStep.scheduled st1 key name ∧
      lookupLogs st1 key =
        pushCap (lookupLogs store key) (entryOf ts "Parser start requested.") ∧
      (∀ k : String, k ≠ key → lookupLogs st1 k = lookupLogs store k) ∧
      lookupLogs (startParserCallback st1 key name r rts).1 key =
        pushCap (lookupLogs st1 key)
          (entryOf rts (if key = "CurrencyInfo" ∧ r < mkRat 1 5
            then "Parser execution FAILED."
            else "Parser execution finished successfully.")) ∧
      (∀ k : String, k ≠ key →
        lookupLogs (startParserCallback st1 key name r rts).1 k = lookupLogs st1 k) := by
  have hkey : findLogKey store key = some key := findLogKey_self store name key hk
  have h1 : startParserSync store (some name) ts =
      SyncStep.scheduled (addLog store key ts "Parser start requested.") key name := by
    unfold startParserSync
    rw [if_neg (by simp [hne])]
    simp [hk]
  have h2 := lookupLogs_addLog_self store key ts "Parser start requested." key hkey
  have h3 : ∀ k : String, k ≠ key →
      lookupLogs (addLog store key ts "Parser start requested.") k = lookupLogs store k :=
    fun k hkk => lookupLogs_addLog_other store key ts "Parser start requested." key k hkey hkk
  have hk2 : findLogKey (addLog store key ts "Parser start requested.") key = some key := by
    rw [findLogKey_addLog]
    exact hkey
  have h4 : lookupLogs
      (startParserCallback (addLog store key ts "Parser start requested.") key name r rts).1 key =
      pushCap (lookupLogs (addLog store key ts "Parser start requested.") key)
        (entryOf rts (if key = "CurrencyInfo" ∧ r < mkRat 1 5
          then "Parser execution FAILED."
          else "Parser execution finished successfully.")) := by
    unfold startParserCallback
    by_cases hcond : key = "CurrencyInfo" ∧ r < mkRat 1 5
    · rw [if_pos hcond, if_pos hcond]
      exact lookupLogs_addLog_self _ key rts _ key hk2
    · rw [if_neg hcond, if_neg hcond]
      exact lookupLogs_addLog_self _ key rts _ key hk2
  have h5 : ∀ k : String, k ≠ key →
      lookupLogs
        (startParserCallback (addLog store key ts "Parser start requested.") key name r rts).1 k =
        lookupLogs (addLog store key ts "Parser start requested.") k := by
    intro k hkk
    unfold startParserCallback
    by_cases hcond : key = "CurrencyInfo" ∧ r < mkRat 1 5
    · rw [if_pos hcond]
      exact lookupLogs_addLog_other _ key rts _ key k hk2 hkk
    · rw [if_neg hcond]
      exact lookupLogs_addLog_other _ key rts _ key k hk2 hkk
  exact ⟨addLog store key ts "Parser start requested.", h1, h2, h3, h4, h5⟩

/-- Concrete instance of C2_start_logs_amended: the lower-cased name sale
resolves to the canonical key Sale. -/
theorem C2_start_logs_amended_witness :
    (isMissing (some "sale") = false ∧ findLogKey mockLogs "sale" = some "Sale") ∧
    (∃ st1 : Store,
      startParserSync mockLogs (some "sale") "T1" = SyncStep.scheduled st1 "Sale" "sale" ∧
      lookupLogs st1 "Sale" =
        pushCap (lookupLogs mockLogs "Sale") (entryOf "T1" "Parser start requested.") ∧
      (∀ k : String, k ≠ "Sale" → lookupLogs st1 k = lookupLogs mockLogs k) ∧
      lookupLogs (startParserCallback st1 "Sale" "sale" (mkRat 1 2) "T2").1 "Sale" =
        pushCap (lookupLogs st1 "Sale")
          (entryOf "T2" (if "Sale" = "CurrencyInfo" ∧ (mkRat 1 2 : ℚ) < mkRat 1 5
            then "Parser execution FAILED."
            else "Parser execution finished successfully.")) ∧
      (∀ k : String, k ≠ "Sale" →
        lookupLogs (startParserCallback st1 "Sale" "sale" (mkRat 1 2) "T2").1 k =
          lookupLogs st1 k)) :=
  ⟨⟨by decide, by decide⟩,
   C2_start_logs_amended mockLogs "sale" "T1" "T2" (mkRat 1 2) "Sale"
     (by decide) (by decide)⟩

/-- Claim C3: with the parser name present, the delayed outcome of
`/start_parser` is the 500 failure body exactly when the resolved job name is
the string CurrencyInfo (case-sensitive) and the draw is below one fifth;
every other resolved name, and CurrencyInfo with a draw of at least one
fifth, yields the 200 success body. -/
theorem C3_currency_failure (store : Store) (name ts rts : String) (r : ℚ)
    (hne : isMissing (some name) = false) :
    ∃ st : Store,
      startParser store (some name) ts rts r =
        ParserResult.done st
          (if (findLogKey store name).getD name = "CurrencyInfo" ∧ r < mkRat 1 5 then
            ⟨500, "Mock error during " ++ name ++ " parsing", name⟩
          else
            ⟨200, "Parser " ++ name ++ " started and finished successfully (mock).", name⟩) := by
  have h1 : startParserSync store (some name) ts =
      SyncStep.scheduled
        (addLog store ((findLogKey store name).getD name) ts "Parser start requested.")
        ((findLogKey store name).getD name) name := by
    unfold startParserSync
    rw [if_neg (by simp [hne])]
    rfl
  rw [startParser_scheduled store (some name) ts rts r _ _ _ h1]
  by_cases hcond : (findLogKey store name).getD name = "CurrencyInfo" ∧ r < mkRat 1 5
  · refine ⟨(startParserCallback
        (addLog store ((findLogKey store name).getD name) ts "Parser start requested.")
        ((findLogKey store name).getD name) name r rts).1, ?_⟩
    unfold startParserCallback
    rw [if_pos hcond, if_pos hcond]
  · refine ⟨(startParserCallback
        (addLog store ((findLogKey store name).getD name) ts "Parser start requested.")
        ((findLogKey store name).getD name) name r rts).1, ?_⟩
    unfold startParserCallback
    rw [if_neg hcond, if_neg hcond]

/-- Concrete instance of C3_currency_failure: CurrencyInfo with a draw below
one fifth. -/
theorem C3_currency_failure_witness :
    isMissing (some "CurrencyInfo") = false ∧
    (∃ st : Store,
      startParser mockLogs (some "CurrencyInfo") "T1" "T2" (mkRat 1 10) =
        ParserResult.done st
          (if (findLogKey mockLogs "CurrencyInfo").getD "CurrencyInfo" = "CurrencyInfo" ∧
             (mkRat 1 10 : ℚ) < mkRat 1 5 then
            ⟨500, "Mock error during " ++ "CurrencyInfo" ++ " parsing", "CurrencyInfo"⟩
          else
            ⟨200, "Parser " ++ "CurrencyInfo" ++ " started and finished successfully (mock).",
              "CurrencyInfo"⟩)) :=
  ⟨by decide,
   C3_currency_failure mockLogs "CurrencyInfo" "T1" "T2" (mkRat 1 10) (by decide)⟩

/-- Characterisation of the Get Logs message for a matched key: the base part
(joined lines, or the placeholder when empty) followed by the synthetic block
exactly when the canonical key is Sale with a non-empty sequence. -/
theorem getLogs_message (store : Store) (name ts : String) (toks : Nat → String)
    (key : String) (hk : findLogKey store name = some key) :
    (getLogs store name ts toks).2.2 =
      (if lookupLogs store key = [] then
        "[" ++ ts ++ "] No logs recorded yet for " ++ key ++ "."
       else String.intercalate "\n" (lookupLogs store key)) ++
      (if key = "Sale" ∧ lookupLogs store key ≠ [] then longLogBlock toks else "") := by
  unfold getLogs
  rw [hk]
  by_cases hl : lookupLogs store key = []
  · simp [hl]
  · by_cases hs : key = "Sale"
    · subst hs
      simp [hl, List.length_pos]
    · simp [hl, hs, List.length_pos]

/-- A store in which Sale has exactly one recorded entry. -/
def saleStore : Store := addLog mockLogs "Sale" "T0" "Parser start requested."

/-- Claim C5 counterexample: for the canonical key Sale with one recorded
entry, the Get Logs response message is the joined stored lines followed by
the synthetic long-log block, hence not equal to the joined stored lines
alone as the claim states. -/
theorem C5_counterexample :
    lookupLogs saleStore "Sale" = [entryOf "T0" "Parser start requested."] ∧
    (getLogs saleStore "Sale" "T1" (fun _ => "tok")).2.1 = 200 ∧
    (getLogs saleStore "Sale" "T1" (fun _ => "tok")).2.2 ≠
      String.intercalate "\n" (lookupLogs saleStore "Sale") := by
  refine ⟨by decide, rfl, ?_⟩
  have h1 : (getLogs saleStore "Sale" "T1" (fun _ => "tok")).2.2 =
      String.intercalate "\n" (lookupLogs saleStore "Sale") ++
        longLogBlock (fun _ => "tok") := by
    rfl
  rw [h1]
  exact append_ne_self_of_ne_empty _ _ (longLogBlock_length_ne_zero _)

/-- Claim C5 amended: for a Get Logs request matching a known key
case-insensitively, the store is unchanged and the response is HTTP 200; with
an empty sequence the message is the placeholder referencing the canonical
name; with a non-empty sequence the message is all stored lines joined by
newlines in stored order, and is exactly that join unless the canonical name
is Sale, in which case the synthetic long-log block follows the join. -/
theorem C5_get_logs_amended (store : Store) (name ts : String) (toks : Nat → String)
    (key : String) (hk : findLogKey store name = some key) :
    (getLogs store name ts toks).1 = store ∧
    (getLogs store name ts toks).2.1 = 200 ∧
    (lookupLogs store key = [] →
      (getLogs store name ts toks).2.2 =
        "[" ++ ts ++ "] No logs recorded yet for " ++ key ++ ".") ∧
    (lookupLogs store key ≠ [] →
      (getLogs store name ts toks).2.2 =
        String.intercalate "\n" (lookupLogs store key) ++
          (if key = "Sale" then longLogBlock toks else "")) := by
  refine ⟨?_, ?_, ?_, ?_⟩
  · unfold getLogs
    rw [hk]
  · unfold getLogs
    rw [hk]
  · intro h
    rw [getLogs_message store name ts toks key hk]
    simp [h]
  · intro h
    rw [getLogs_message store name ts toks key hk]
    simp [h]

/-- Concrete instance of C5_get_logs_amended: the lower-cased name
packageidprice resolves to PackageIdPrice, whose sequence is empty in the
initial store. -/
theorem C5_get_logs_amended_witness :
    findLogKey mockLogs "packageidprice" = some "PackageIdPrice" ∧
    ((getLogs mockLogs "packageidprice" "T" (fun _ => "k")).1 = mockLogs ∧
     (getLogs mockLogs "packageidprice" "T" (fun _ => "k")).2.1 = 200 ∧
     (lookupLogs mockLogs "PackageIdPrice" = [] →
       (getLogs mockLogs "packageidprice" "T" (fun _ => "k")).2.2 =
         "[" ++ "T" ++ "] No logs recorded yet for " ++ "PackageIdPrice" ++ ".") ∧
     (lookupLogs mockLogs "PackageIdPrice" ≠ [] →
       (getLogs mockLogs "packageidprice" "T" (fun _ => "k")).2.2 =
         String.intercalate "\n" (lookupLogs mockLogs "PackageIdPrice") ++
           (if "PackageIdPrice" = "Sale" then longLogBlock (fun _ => "k") else ""))) :=
  ⟨by decide,
   C5_get_logs_amended mockLogs "packageidprice" "T" (fun _ => "k") "PackageIdPrice"
     (by decide)⟩

/-- Claim C6: the synthetic block is appended to the Get Logs message exactly
when the matched canonical name is Sale with at least one entry; the block is
the literal start marker, then exactly 500 lines, the line at index i
carrying line number i+1 and its random token, then the literal end marker,
placed after the stored log lines. -/
theorem C6_sale_long_log (store : Store) (name ts : String) (toks : Nat → String)
    (key : String) (hk : findLogKey store name = some key) :
    (((getLogs store name ts toks).2.2 =
        (if lookupLogs store key = [] then
          "[" ++ ts ++ "] No logs recorded yet for " ++ key ++ "."
         else String.intercalate "\n" (lookupLogs store key)) ++ longLogBlock toks) ↔
      (key = "Sale" ∧ lookupLogs store key ≠ [])) ∧
    longLogBlock toks =
      "\n----- START LONG LOG -----\n" ++
        concatStrings ((List.range 500).map (fun i => longLogLine i (toks i))) ++
        "----- END LONG LOG -----" ∧
    ((List.range 500).map (fun i => longLogLine i (toks i))).length = 500 ∧
    (∀ i : Nat, i < 500 →
      ((List.range 500).map (fun j => longLogLine j (toks j)))[i]? =
        some ("This is a very long log line number " ++ toString (i + 1) ++
          " to test the file sending feature. Count: " ++ toks i ++ ".\n")) := by
  refine ⟨⟨?_, ?_⟩, longLogBlock_eq toks, by simp, ?_⟩
  · intro heq
    by_contra hneg
    rw [getLogs_message store name ts toks key hk, if_neg hneg, String.append_empty] at heq
    exact append_ne_self_of_ne_empty _ _ (longLogBlock_length_ne_zero toks) heq.symm
  · intro hcond
    rw [getLogs_message store name ts toks key hk, if_pos hcond]
  · intro i hi
    simp [List.getElem?_map, List.getElem?_range hi, longLogLine]

/-- Concrete instance of C6_sale_long_log: Sale with one recorded entry. -/
theorem C6_sale_long_log_witness :
    findLogKey saleStore "Sale" = some "Sale" ∧
    ((((getLogs saleStore "Sale" "T1" (fun _ => "tok")).2.2 =
        (if lookupLogs saleStore "Sale" = [] then
          "[" ++ "T1" ++ "] No logs recorded yet for " ++ "Sale" ++ "."
         else String.intercalate "\n" (lookupLogs saleStore "Sale")) ++
          longLogBlock (fun _ => "tok")) ↔
      ("Sale" = "Sale" ∧ lookupLogs saleStore "Sale" ≠ [])) ∧
    longLogBlock (fun _ => "tok") =
      "\n----- START LONG LOG -----\n" ++
        concatStrings ((List.range 500).map (fun i => longLogLine i "tok")) ++
        "----- END LONG LOG -----" ∧
    ((List.range 500).map (fun i => longLogLine i "tok")).length = 500 ∧
    (∀ i : Nat, i < 500 →
      ((List.range 500).map (fun j => longLogLine j "tok"))[i]? =
        some ("This is a very long log line number " ++ toString (i + 1) ++
          " to test the file sending feature. Count: " ++ "tok" ++ ".\n"))) :=
  ⟨by decide, C6_sale_long_log saleStore "Sale" "T1" (fun _ => "tok") "Sale" (by decide)⟩

end MockServer
